import Mathlib

/-
Shallow embedding of pywebpack/manifests.py: the Manifest / ManifestEntry data
model, the three format factories (webpack-manifest-plugin, webpack-yam-plugin,
webpack-bundle-tracker) and the ManifestLoader probing loop, together with the
Python-level behaviours they rely on (dict subscripting, dict membership,
iteration, os.path.splitext, str.format on the two fixed templates).
-/

set_option autoImplicit false

namespace PyWebpack

/-- A parsed JSON document, as produced by json.load: objects are
insertion-ordered association lists with unique keys (Python dicts). -/
inductive JsonValue where
  | null : JsonValue
  | bool (b : Bool) : JsonValue
  | num (n : Int) : JsonValue
  | str (s : String) : JsonValue
  | arr (elems : List JsonValue) : JsonValue
  | obj (kvs : List (String × JsonValue)) : JsonValue

/-- The exceptions the code can raise.  The first four model the
ManifestError subclasses of manifests.py; keyError, typeError and
attributeError model the corresponding Python builtins. -/
inductive PyError where
  | invalidManifest (msg : String) : PyError
  | unfinishedManifest (data : JsonValue) : PyError
  | unsupportedManifest (filepath : String) : PyError
  | unsupportedExtension (path : String) : PyError
  | keyError (key : String) : PyError
  | typeError (msg : String) : PyError
  | attributeError (msg : String) : PyError

/-- Python "value is None". -/
def JsonValue.isNull : JsonValue → Bool
  | .null => true
  | _ => false

/-- Python equality between a JSON value and a string literal: true exactly
when the value is that string (no other JSON value compares equal to a
string). -/
def JsonValue.eqStrLit : JsonValue → String → Bool
  | .str s, t => s == t
  | _, _ => false

/-- Whether an error is one of the four ManifestError subclasses
(isinstance check against the manifest-domain error taxonomy). -/
def PyError.isManifestError : PyError → Bool
  | .invalidManifest _ => true
  | .unfinishedManifest _ => true
  | .unsupportedManifest _ => true
  | .unsupportedExtension _ => true
  | _ => false

/-- Python subscripting value[key] with a string key: dict lookup raising
KeyError when the key is missing; every non-dict value raises TypeError
(lists and strings reject string indices, numbers and None are not
subscriptable). -/
def subscript : JsonValue → String → Except PyError JsonValue
  | .obj kvs, key =>
    match kvs.lookup key with
    | some v => .ok v
    | none => .error (.keyError key)
  | _, _ => .error (.typeError "value is not subscriptable by string")

/-- Python value.items(): only dicts have the method; every other value
raises AttributeError. -/
def items : JsonValue → Except PyError (List (String × JsonValue))
  | .obj kvs => .ok kvs
  | _ => .error (.attributeError "items")

/-- Python iteration over a value: lists yield their elements, strings yield
their characters as one-character strings, dicts yield their keys; numbers,
booleans and None raise TypeError. -/
def pyIter : JsonValue → Except PyError (List JsonValue)
  | .arr elems => .ok elems
  | .str s => .ok (s.data.map fun c => .str (String.singleton c))
  | .obj kvs => .ok (kvs.map fun kv => .str kv.1)
  | _ => .error (.typeError "value is not iterable")

/-- Python "key in data" on a dict.  In manifests.py this is only evaluated
after a successful string subscript on data, which guarantees data is a
dict, so the non-dict branches are unreachable there. -/
def hasKey (v : JsonValue) (key : String) : Bool :=
  match v with
  | .obj kvs => kvs.any fun kv => kv.1 == key
  | _ => false

/-- Run a computation, turning a KeyError (and only a KeyError) into the
given error: models "try: ... except KeyError: raise e". -/
def catchKeyError {α : Type} (r : Except PyError α) (e : PyError) : Except PyError α :=
  match r with
  | .error (.keyError _) => .error e
  | other => other

/-- The last index of a character in a list, or -1 when absent
(Python str.rfind). -/
def rfindChar (cs : List Char) (c : Char) : Int :=
  cs.enum.foldl (fun acc ic => if ic.2 = c then (ic.1 : Int) else acc) (-1)

/-- os.path.splitext for POSIX paths: split at the last dot that lies after
the last slash, unless every character between the slash and that dot is
itself a dot (leading dots of the basename never start an extension). -/
def splitext (p : String) : String × String :=
  let cs := p.data
  let sepIndex := rfindChar cs '/'
  let dotIndex := rfindChar cs '.'
  if sepIndex < dotIndex ∧
      ((cs.drop (sepIndex + 1).toNat).take (dotIndex - sepIndex - 1).toNat).any
        (fun c => c ≠ '.') = true then
    (⟨cs.take dotIndex.toNat⟩, ⟨cs.drop dotIndex.toNat⟩)
  else
    (p, "")

/-- Python str.lower(), character by character (the extensions looked up in
the template table are ASCII). -/
def strToLower (s : String) : String := ⟨s.data.map Char.toLower⟩

/-- A manifest entry: a name and the paths value handed to the constructor
(the factories pass lists, but webpack-yam-plugin passes the raw JSON value
stored under files[name], so the field holds a JsonValue). -/
structure ManifestEntry where
  name : String
  paths : JsonValue

/-- ManifestEntry.templates: the fixed extension-to-template table; each
template is modelled as the function str.format gives on the template
string with its single placeholder. -/
def ManifestEntry.templates : List (String × (String → String)) :=
  [(".js", fun path => "<script src=\"" ++ path ++ "\"></script>"),
   (".css", fun path => "<link rel=\"stylesheet\" href=\"" ++ path ++ "\"></link>")]

/-- One step of ManifestEntry.render: splitext the path (TypeError on a
non-string), look its lowercased extension up in the template table, and
either format the template with the raw path or raise
UnsupportedExtensionError carrying the path. -/
def renderPath (p : JsonValue) : Except PyError String :=
  match p with
  | .str s =>
    match ManifestEntry.templates.lookup (strToLower (splitext s).2) with
    | some tpl => .ok (tpl s)
    | none => .error (.unsupportedExtension s)
  | _ => .error (.typeError "splitext expects a path string")

/-- The render loop body: renders each path in order, stopping at the first
failure. -/
def renderLoop : List JsonValue → Except PyError (List String)
  | [] => .ok []
  | p :: ps => do
    let s ← renderPath p
    let rest ← renderLoop ps
    .ok (s :: rest)

/-- ManifestEntry.render: iterate over the stored paths, render each and
concatenate the results with no separator. -/
def ManifestEntry.render (e : ManifestEntry) : Except PyError String := do
  let ps ← pyIter e.paths
  let out ← renderLoop ps
  .ok (String.join out)

/-- A manifest: the insertion-ordered dict mapping entry names to entries. -/
structure Manifest where
  entries : List (String × ManifestEntry)

/-- Manifest.add: raises KeyError when an entry with the same name is
already present, otherwise stores the entry under its name. -/
def Manifest.add (m : Manifest) (entry : ManifestEntry) : Except PyError Manifest :=
  if m.entries.any fun kv => kv.1 == entry.name then
    .error (.keyError ("Entry " ++ entry.name ++ " already present"))
  else
    .ok ⟨m.entries ++ [(entry.name, entry)]⟩

/-- Manifest.__getitem__: dict lookup raising KeyError on a missing name. -/
def Manifest.getItem (m : Manifest) (key : String) : Except PyError ManifestEntry :=
  match m.entries.lookup key with
  | some e => .ok e
  | none => .error (.keyError key)

/-- Manifest.__getattr__: dict lookup, turning the KeyError of a missing
name into an AttributeError. -/
def Manifest.getAttr (m : Manifest) (name : String) : Except PyError ManifestEntry :=
  match m.entries.lookup name with
  | some e => .ok e
  | none => .error (.attributeError ("Attribute " ++ name ++ " does not exists."))

/-- ManifestFactory.create_entry. -/
def ManifestFactory.create_entry (name : String) (paths : JsonValue) : ManifestEntry :=
  ⟨name, paths⟩

/-- ManifestFactory.create_manifest. -/
def ManifestFactory.create_manifest : Manifest := ⟨[]⟩

/-- The loop of WebpackManifestFactory.create: for each (name, path) item,
raise InvalidManifestError when the value is not a string, else add an
entry whose paths are the one-element list holding that string. -/
def WebpackManifestFactory.createLoop :
    Manifest → List (String × JsonValue) → Except PyError Manifest
  | m, [] => .ok m
  | m, (entry_name, path) :: rest =>
    match path with
    | .str s => do
      let m' ← m.add (ManifestFactory.create_entry entry_name (.arr [.str s]))
      WebpackManifestFactory.createLoop m' rest
    | _ => .error (.invalidManifest "webpack-manifest-plugin")

/-- WebpackManifestFactory.create. -/
def WebpackManifestFactory.create (data : JsonValue) : Except PyError Manifest := do
  let kvs ← items data
  WebpackManifestFactory.createLoop ManifestFactory.create_manifest kvs

/-- The loop of WebpackYamFactory.create: one entry per files item, whose
paths are the stored value as-is. -/
def WebpackYamFactory.createLoop :
    Manifest → List (String × JsonValue) → Except PyError Manifest
  | m, [] => .ok m
  | m, (entry_name, paths) :: rest => do
    let m' ← m.add (ManifestFactory.create_entry entry_name paths)
    WebpackYamFactory.createLoop m' rest

/-- WebpackYamFactory.create: KeyError on status or files becomes
InvalidManifestError; files = None or status not equal to "built" raises
UnfinishedManifestError carrying the data; otherwise one entry per files
item. -/
def WebpackYamFactory.create (data : JsonValue) : Except PyError Manifest := do
  let sf ← catchKeyError
    (do
      let status ← subscript data "status"
      let files ← subscript data "files"
      pure (status, files))
    (.invalidManifest "webpack-yam-plugin")
  if sf.2.isNull || !(sf.1.eqStrLit "built") then
    .error (.unfinishedManifest data)
  else do
    let fkvs ← items sf.2
    WebpackYamFactory.createLoop ManifestFactory.create_manifest fkvs

/-- The list comprehension of WebpackBundleTrackerFactory.create:
x["publicPath"] for each descriptor x of one chunk, failing at the first
descriptor that is not a dict or lacks the key. -/
def extractPublicPaths : List JsonValue → Except PyError (List JsonValue)
  | [] => .ok []
  | x :: xs => do
    let p ← subscript x "publicPath"
    let ps ← extractPublicPaths xs
    .ok (p :: ps)

/-- The loop of WebpackBundleTrackerFactory.create: one entry per chunk,
whose paths are the publicPath fields of its descriptor list, in order. -/
def WebpackBundleTrackerFactory.createLoop :
    Manifest → List (String × JsonValue) → Except PyError Manifest
  | m, [] => .ok m
  | m, (entry_name, paths) :: rest => do
    let xs ← pyIter paths
    let pubs ← extractPublicPaths xs
    let m' ← m.add (ManifestFactory.create_entry entry_name (.arr pubs))
    WebpackBundleTrackerFactory.createLoop m' rest

/-- WebpackBundleTrackerFactory.create: KeyError on status becomes
InvalidManifestError, a missing chunks key raises InvalidManifestError,
status not equal to "done" raises UnfinishedManifestError carrying the
data, and otherwise one entry is built per chunk. -/
def WebpackBundleTrackerFactory.create (data : JsonValue) : Except PyError Manifest := do
  let status ← catchKeyError (subscript data "status")
    (.invalidManifest "webpack-bundle-tracker")
  if hasKey data "chunks" = false then
    .error (.invalidManifest "webpack-bundle-tracker")
  else if !(status.eqStrLit "done") then
    .error (.unfinishedManifest data)
  else do
    let chunks ← subscript data "chunks"
    let ckvs ← items chunks
    WebpackBundleTrackerFactory.createLoop ManifestFactory.create_manifest ckvs

/-- ManifestLoader.types: the fixed priority list of factories. -/
def ManifestLoader.types : List (JsonValue → Except PyError Manifest) :=
  [WebpackBundleTrackerFactory.create,
   WebpackYamFactory.create,
   WebpackManifestFactory.create]

/-- The probing loop of ManifestLoader.load: try each factory on the parsed
data; InvalidManifestError means try the next, any other outcome (success
or error) is returned; when the list is exhausted raise
UnsupportedManifestError carrying the file path. -/
def ManifestLoader.loadLoop (filepath : String) (data : JsonValue) :
    List (JsonValue → Except PyError Manifest) → Except PyError Manifest
  | [] => .error (.unsupportedManifest filepath)
  | t :: ts =>
    match t data with
    | .error (.invalidManifest _) => ManifestLoader.loadLoop filepath data ts
    | r => r

/-- ManifestLoader.load, applied to the already-parsed JSON of the file at
filepath. -/
def ManifestLoader.load (filepath : String) (data : JsonValue) : Except PyError Manifest :=
  ManifestLoader.loadLoop filepath data ManifestLoader.types

/-- The publicPath field of a chunk descriptor (spec-side helper used to
state expected outputs; the factories only reach it on descriptors where
the lookup succeeds). -/
def publicPathOf (d : JsonValue) : JsonValue :=
  match d with
  | .obj dkvs => (dkvs.lookup "publicPath").getD .null
  | _ => .null

/-- The expected publicPath list of one chunk value (spec-side helper). -/
def chunkPublicPaths (v : JsonValue) : List JsonValue :=
  match v with
  | .arr ds => ds.map publicPathOf
  | _ => []

/-- The HTML tag the spec expects for one path (spec-side helper). -/
def expectedTag (p : String) : String :=
  if strToLower (splitext p).2 = ".js" then
    "<script src=\"" ++ p ++ "\"></script>"
  else if strToLower (splitext p).2 = ".css" then
    "<link rel=\"stylesheet\" href=\"" ++ p ++ "\"></link>"
  else ""

theorem except_bind_ok {α β : Type} (a : α) (f : α → Except PyError β) :
    (Except.ok a : Except PyError α) >>= f = f a := rfl

theorem except_bind_error {α β : Type} (e : PyError) (f : α → Except PyError β) :
    (Except.error e : Except PyError α) >>= f = Except.error e := rfl

theorem lookup_none_iff_any_false {β : Type} (l : List (String × β)) (k : String) :
    l.lookup k = none ↔ (l.any fun kv => kv.1 == k) = false := by
  induction l with
  | nil => simp
  | cons kv rest ih =>
    obtain ⟨a, b⟩ := kv
    by_cases hak : k = a
    · subst hak
      simp [List.lookup]
    · have h1 : (k == a) = false := beq_eq_false_iff_ne.mpr hak
      have h2 : (a == k) = false := beq_eq_false_iff_ne.mpr (Ne.symm hak)
      simp only [List.lookup, h1, List.any_cons, h2, Bool.false_or]
      exact ih

theorem lookup_some_hasKey {β : Type} (l : List (String × β)) (k : String) (v : β)
    (h : l.lookup k = some v) : (l.any fun kv => kv.1 == k) = true := by
  by_contra hfalse
  rw [Bool.not_eq_true] at hfalse
  rw [(lookup_none_iff_any_false l k).mpr hfalse] at h
  exact Option.noConfusion h

theorem lookup_append_of_any_false {β : Type} (l1 l2 : List (String × β)) (k : String)
    (h : (l1.any fun kv => kv.1 == k) = false) :
    (l1 ++ l2).lookup k = l2.lookup k := by
  induction l1 with
  | nil => simp
  | cons kv rest ih =>
    obtain ⟨a, b⟩ := kv
    simp only [List.any_cons, Bool.or_eq_false_iff] at h
    have h1 : (k == a) = false := by
      rcases h with ⟨ha, _⟩
      exact beq_eq_false_iff_ne.mpr (Ne.symm (beq_eq_false_iff_ne.mp ha))
    simp only [List.cons_append, List.lookup, h1]
    exact ih h.2

theorem webpackManifestFactory_createLoop_ok (kvs : List (String × JsonValue)) :
    ∀ m : Manifest,
    (kvs.map Prod.fst).Nodup →
    (∀ kv ∈ kvs, (m.entries.any fun e => e.1 == kv.1) = false) →
    (∀ kv ∈ kvs, ∃ s, kv.2 = JsonValue.str s) →
    WebpackManifestFactory.createLoop m kvs =
      .ok ⟨m.entries ++ (kvs.map fun kv => (kv.1, ⟨kv.1, .arr [kv.2]⟩))⟩ := by
  induction kvs with
  | nil => intro m _ _ _; simp [WebpackManifestFactory.createLoop]
  | cons kv0 rest ih =>
    intro m hnd hdis hstr
    obtain ⟨n, v⟩ := kv0
    obtain ⟨s, hs⟩ := hstr (n, v) (List.mem_cons_self _ _)
    have hs' : v = JsonValue.str s := hs
    subst hs'
    simp only [List.map_cons, List.nodup_cons] at hnd
    have hcond : (m.entries.any fun e => e.1 == n) = false :=
      hdis (n, JsonValue.str s) (List.mem_cons_self _ _)
    have step : WebpackManifestFactory.createLoop m ((n, JsonValue.str s) :: rest) =
        WebpackManifestFactory.createLoop
          ⟨m.entries ++ [(n, ⟨n, JsonValue.arr [JsonValue.str s]⟩)]⟩ rest := by
      simp [WebpackManifestFactory.createLoop, Manifest.add, ManifestFactory.create_entry,
        hcond, except_bind_ok]
    rw [step, ih _ hnd.2 ?_ (fun kv hkv => hstr kv (List.mem_cons_of_mem _ hkv))]
    · simp
    · intro kv hkv
      have hne : (n == kv.1) = false := by
        refine beq_eq_false_iff_ne.mpr fun hEq => hnd.1 ?_
        exact hEq ▸ List.mem_map_of_mem Prod.fst hkv
      simp [List.any_append, hdis kv (List.mem_cons_of_mem _ hkv), hne]

theorem webpackManifestFactory_createLoop_invalid (kvs : List (String × JsonValue)) :
    ∀ m : Manifest,
    (kvs.map Prod.fst).Nodup →
    (∀ kv ∈ kvs, (m.entries.any fun e => e.1 == kv.1) = false) →
    (∃ kv ∈ kvs, ∀ s, kv.2 ≠ JsonValue.str s) →
    WebpackManifestFactory.createLoop m kvs =
      .error (.invalidManifest "webpack-manifest-plugin") := by
  induction kvs with
  | nil =>
    intro m _ _ hex
    obtain ⟨kv, hkv, _⟩ := hex
    exact absurd hkv (List.not_mem_nil kv)
  | cons kv0 rest ih =>
    intro m hnd hdis hex
    obtain ⟨n, v⟩ := kv0
    cases v with
    | str s =>
      simp only [List.map_cons, List.nodup_cons] at hnd
      have hcond : (m.entries.any fun e => e.1 == n) = false :=
        hdis (n, JsonValue.str s) (List.mem_cons_self _ _)
      have step : WebpackManifestFactory.createLoop m ((n, JsonValue.str s) :: rest) =
          WebpackManifestFactory.createLoop
            ⟨m.entries ++ [(n, ⟨n, JsonValue.arr [JsonValue.str s]⟩)]⟩ rest := by
        simp [WebpackManifestFactory.createLoop, Manifest.add, ManifestFactory.create_entry,
          hcond, except_bind_ok]
      obtain ⟨kv, hkv, hns⟩ := hex
      rcases List.mem_cons.mp hkv with heq | hmem
      · exact absurd (congrArg Prod.snd heq) fun h => hns s h
      · rw [step]
        refine ih _ hnd.2 ?_ ⟨kv, hmem, hns⟩
        intro kv' hkv'
        have hne : (n == kv'.1) = false := by
          refine beq_eq_false_iff_ne.mpr fun hEq => hnd.1 ?_
          exact hEq ▸ List.mem_map_of_mem Prod.fst hkv'
        simp [List.any_append, hdis kv' (List.mem_cons_of_mem _ hkv'), hne]
    | null => simp [WebpackManifestFactory.createLoop]
    | bool b => simp [WebpackManifestFactory.createLoop]
    | num x => simp [WebpackManifestFactory.createLoop]
    | arr elems => simp [WebpackManifestFactory.createLoop]
    | obj okvs => simp [WebpackManifestFactory.createLoop]

theorem webpackYamFactory_createLoop_ok (kvs : List (String × JsonValue)) :
    ∀ m : Manifest,
    (kvs.map Prod.fst).Nodup →
    (∀ kv ∈ kvs, (m.entries.any fun e => e.1 == kv.1) = false) →
    WebpackYamFactory.createLoop m kvs =
      .ok ⟨m.entries ++ (kvs.map fun kv => (kv.1, ⟨kv.1, kv.2⟩))⟩ := by
  induction kvs with
  | nil => intro m _ _; simp [WebpackYamFactory.createLoop]
  | cons kv0 rest ih =>
    intro m hnd hdis
    obtain ⟨n, v⟩ := kv0
    simp only [List.map_cons, List.nodup_cons] at hnd
    have hcond : (m.entries.any fun e => e.1 == n) = false :=
      hdis (n, v) (List.mem_cons_self _ _)
    have step : WebpackYamFactory.createLoop m ((n, v) :: rest) =
        WebpackYamFactory.createLoop ⟨m.entries ++ [(n, ⟨n, v⟩)]⟩ rest := by
      simp [WebpackYamFactory.createLoop, Manifest.add, ManifestFactory.create_entry,
        hcond, except_bind_ok]
    rw [step, ih _ hnd.2 ?_]
    · simp
    · intro kv hkv
      have hne : (n == kv.1) = false := by
        refine beq_eq_false_iff_ne.mpr fun hEq => hnd.1 ?_
        exact hEq ▸ List.mem_map_of_mem Prod.fst hkv
      simp [List.any_append, hdis kv (List.mem_cons_of_mem _ hkv), hne]

theorem extractPublicPaths_ok (ds : List JsonValue)
    (h : ∀ d ∈ ds, ∃ dkvs, d = JsonValue.obj dkvs ∧ (dkvs.lookup "publicPath").isSome = true) :
    extractPublicPaths ds = .ok (ds.map publicPathOf) := by
  induction ds with
  | nil => simp [extractPublicPaths]
  | cons d rest ih =>
    obtain ⟨dkvs, hd, hsome⟩ := h d (List.mem_cons_self _ _)
    subst hd
    obtain ⟨v, hv⟩ := Option.isSome_iff_exists.mp hsome
    simp [extractPublicPaths, subscript, hv, publicPathOf, except_bind_ok,
      ih (fun q hq => h q (List.mem_cons_of_mem _ hq))]

theorem extractPublicPaths_keyError (ds : List JsonValue)
    (hobj : ∀ d ∈ ds, ∃ dkvs, d = JsonValue.obj dkvs)
    (hmiss : ∃ d ∈ ds, ∃ dkvs, d = JsonValue.obj dkvs ∧ dkvs.lookup "publicPath" = none) :
    extractPublicPaths ds = .error (.keyError "publicPath") := by
  induction ds with
  | nil =>
    obtain ⟨d, hd, _⟩ := hmiss
    exact absurd hd (List.not_mem_nil d)
  | cons d rest ih =>
    obtain ⟨dkvs, hd⟩ := hobj d (List.mem_cons_self _ _)
    subst hd
    cases hl : dkvs.lookup "publicPath" with
    | none => simp [extractPublicPaths, subscript, hl, except_bind_error]
    | some v =>
      have hrest : ∃ d ∈ rest, ∃ dkvs', d = JsonValue.obj dkvs' ∧
          dkvs'.lookup "publicPath" = none := by
        obtain ⟨d', hd', dkvs', heq', hnone'⟩ := hmiss
        rcases List.mem_cons.mp hd' with heq | hmem
        · rw [heq] at heq'
          injection heq' with hkv
          subst hkv
          rw [hl] at hnone'
          exact absurd hnone' (Option.noConfusion)
        · exact ⟨d', hmem, dkvs', heq', hnone'⟩
      simp [extractPublicPaths, subscript, hl, except_bind_ok, except_bind_error,
        ih (fun q hq => hobj q (List.mem_cons_of_mem _ hq)) hrest]

theorem webpackBundleTrackerFactory_createLoop_ok (ckvs : List (String × JsonValue)) :
    ∀ m : Manifest,
    (ckvs.map Prod.fst).Nodup →
    (∀ ckv ∈ ckvs, (m.entries.any fun e => e.1 == ckv.1) = false) →
    (∀ ckv ∈ ckvs, ∃ ds, ckv.2 = JsonValue.arr ds ∧
      ∀ d ∈ ds, ∃ dkvs, d = JsonValue.obj dkvs ∧ (dkvs.lookup "publicPath").isSome = true) →
    WebpackBundleTrackerFactory.createLoop m ckvs =
      .ok ⟨m.entries ++ (ckvs.map fun ckv => (ckv.1, ⟨ckv.1, .arr (chunkPublicPaths ckv.2)⟩))⟩ := by
  induction ckvs with
  | nil => intro m _ _ _; simp [WebpackBundleTrackerFactory.createLoop]
  | cons ckv0 rest ih =>
    intro m hnd hdis hwf
    obtain ⟨n, v⟩ := ckv0
    obtain ⟨ds, hv, hds⟩ := hwf (n, v) (List.mem_cons_self _ _)
    have hv' : v = JsonValue.arr ds := hv
    subst hv'
    simp only [List.map_cons, List.nodup_cons] at hnd
    have hcond : (m.entries.any fun e => e.1 == n) = false :=
      hdis (n, JsonValue.arr ds) (List.mem_cons_self _ _)
    have step : WebpackBundleTrackerFactory.createLoop m ((n, JsonValue.arr ds) :: rest) =
        WebpackBundleTrackerFactory.createLoop
          ⟨m.entries ++ [(n, ⟨n, JsonValue.arr (ds.map publicPathOf)⟩)]⟩ rest := by
      simp [WebpackBundleTrackerFactory.createLoop, pyIter, extractPublicPaths_ok ds hds,
        Manifest.add, ManifestFactory.create_entry, hcond, except_bind_ok]
    rw [step, ih _ hnd.2 ?_ (fun kv hkv => hwf kv (List.mem_cons_of_mem _ hkv))]
    · simp [chunkPublicPaths]
    · intro kv hkv
      have hne : (n == kv.1) = false := by
        refine beq_eq_false_iff_ne.mpr fun hEq => hnd.1 ?_
        exact hEq ▸ List.mem_map_of_mem Prod.fst hkv
      simp [List.any_append, hdis kv (List.mem_cons_of_mem _ hkv), hne]

theorem webpackBundleTrackerFactory_createLoop_keyError (ckvs : List (String × JsonValue)) :
    ∀ m : Manifest,
    (ckvs.map Prod.fst).Nodup →
    (∀ ckv ∈ ckvs, (m.entries.any fun e => e.1 == ckv.1) = false) →
    (∀ ckv ∈ ckvs, ∃ ds, ckv.2 = JsonValue.arr ds ∧
      ∀ d ∈ ds, ∃ dkvs, d = JsonValue.obj dkvs) →
    (∃ ckv ∈ ckvs, ∃ ds, ckv.2 = JsonValue.arr ds ∧
      ∃ d ∈ ds, ∃ dkvs, d = JsonValue.obj dkvs ∧ dkvs.lookup "publicPath" = none) →
    WebpackBundleTrackerFactory.createLoop m ckvs = .error (.keyError "publicPath") := by
  induction ckvs with
  | nil =>
    intro m _ _ _ hex
    obtain ⟨ckv, hckv, _⟩ := hex
    exact absurd hckv (List.not_mem_nil ckv)
  | cons ckv0 rest ih =>
    intro m hnd hdis hwf hex
    obtain ⟨n, v⟩ := ckv0
    obtain ⟨ds, hv, hdso⟩ := hwf (n, v) (List.mem_cons_self _ _)
    have hv' : v = JsonValue.arr ds := hv
    subst hv'
    simp only [List.map_cons, List.nodup_cons] at hnd
    by_cases hdm : ∃ d ∈ ds, ∃ dkvs, d = JsonValue.obj dkvs ∧
        dkvs.lookup "publicPath" = none
    · simp [WebpackBundleTrackerFactory.createLoop, pyIter,
        extractPublicPaths_keyError ds hdso hdm, except_bind_ok, except_bind_error]
    · have hds : ∀ d ∈ ds, ∃ dkvs, d = JsonValue.obj dkvs ∧
          (dkvs.lookup "publicPath").isSome = true := by
        intro d hd
        obtain ⟨dkvs, hdeq⟩ := hdso d hd
        refine ⟨dkvs, hdeq, ?_⟩
        rcases hsome : dkvs.lookup "publicPath" with _ | w
        · exact absurd ⟨d, hd, dkvs, hdeq, hsome⟩ hdm
        · rfl
      have hcond : (m.entries.any fun e => e.1 == n) = false :=
        hdis (n, JsonValue.arr ds) (List.mem_cons_self _ _)
      have step : WebpackBundleTrackerFactory.createLoop m ((n, JsonValue.arr ds) :: rest) =
          WebpackBundleTrackerFactory.createLoop
            ⟨m.entries ++ [(n, ⟨n, JsonValue.arr (ds.map publicPathOf)⟩)]⟩ rest := by
        simp [WebpackBundleTrackerFactory.createLoop, pyIter, extractPublicPaths_ok ds hds,
          Manifest.add, ManifestFactory.create_entry, hcond, except_bind_ok]
      obtain ⟨ckv, hckv, ds', harr', hdmiss'⟩ := hex
      rcases List.mem_cons.mp hckv with heq | hmem
      · subst heq
        have harr2 : JsonValue.arr ds = JsonValue.arr ds' := harr'
        injection harr2 with hds2
        subst hds2
        exact absurd hdmiss' fun h => hdm h
      · rw [step]
        refine ih _ hnd.2 ?_ (fun kv hkv => hwf kv (List.mem_cons_of_mem _ hkv))
          ⟨ckv, hmem, ds', harr', hdmiss'⟩
        intro kv hkv
        have hne : (n == kv.1) = false := by
          refine beq_eq_false_iff_ne.mpr fun hEq => hnd.1 ?_
          exact hEq ▸ List.mem_map_of_mem Prod.fst hkv
        simp [List.any_append, hdis kv (List.mem_cons_of_mem _ hkv), hne]

theorem renderLoop_ok (paths : List String)
    (h : ∀ p ∈ paths, strToLower (splitext p).2 = ".js" ∨ strToLower (splitext p).2 = ".css") :
    renderLoop (paths.map JsonValue.str) = .ok (paths.map expectedTag) := by
  induction paths with
  | nil => simp [renderLoop]
  | cons p rest ih =>
    have hrest := fun q hq => h q (List.mem_cons_of_mem _ hq)
    rcases h p (List.mem_cons_self _ _) with hjs | hcss
    · simp [renderLoop, renderPath, hjs, ManifestEntry.templates, List.lookup,
        expectedTag, except_bind_ok, ih hrest]
    · simp [renderLoop, renderPath, hcss, ManifestEntry.templates, List.lookup,
        expectedTag, except_bind_ok, ih hrest]

theorem renderLoop_unsupportedExtension (good : List String) (bad : String) (rest : List String)
    (hgood : ∀ p ∈ good, strToLower (splitext p).2 = ".js" ∨ strToLower (splitext p).2 = ".css")
    (hbad1 : strToLower (splitext bad).2 ≠ ".js")
    (hbad2 : strToLower (splitext bad).2 ≠ ".css") :
    renderLoop ((good ++ bad :: rest).map JsonValue.str) =
      .error (.unsupportedExtension bad) := by
  induction good with
  | nil =>
    simp [renderLoop, renderPath, ManifestEntry.templates, List.lookup,
      beq_eq_false_iff_ne.mpr hbad1, beq_eq_false_iff_ne.mpr hbad2, except_bind_error]
  | cons p grest ih =>
    have ih' := ih fun q hq => hgood q (List.mem_cons_of_mem _ hq)
    simp only [List.map_append, List.map_cons] at ih'
    rcases hgood p (List.mem_cons_self _ _) with hjs | hcss
    · simp [renderLoop, renderPath, hjs, ManifestEntry.templates, List.lookup,
        except_bind_ok, except_bind_error, ih']
    · simp [renderLoop, renderPath, hcss, ManifestEntry.templates, List.lookup,
        except_bind_ok, except_bind_error, ih']

theorem eqStrLit_false {v : JsonValue} {t : String} (h : v ≠ JsonValue.str t) :
    v.eqStrLit t = false := by
  cases v with
  | str s =>
    exact beq_eq_false_iff_ne.mpr fun heq => h (by rw [heq])
  | null => rfl
  | bool b => rfl
  | num x => rfl
  | arr elems => rfl
  | obj kvs => rfl

theorem webpackBundleTrackerFactory_create_invalid (kvs : List (String × JsonValue))
    (h : hasKey (JsonValue.obj kvs) "status" = false ∨
      hasKey (JsonValue.obj kvs) "chunks" = false) :
    WebpackBundleTrackerFactory.create (JsonValue.obj kvs) =
      .error (.invalidManifest "webpack-bundle-tracker") := by
  rcases h with hs | hc
  · have hnone : kvs.lookup "status" = none :=
      (lookup_none_iff_any_false kvs "status").mpr (by simpa [hasKey] using hs)
    simp [WebpackBundleTrackerFactory.create, subscript, hnone, catchKeyError,
      except_bind_error]
  · cases hst : kvs.lookup "status" with
    | none =>
      simp [WebpackBundleTrackerFactory.create, subscript, hst, catchKeyError,
        except_bind_error]
    | some v =>
      simp [WebpackBundleTrackerFactory.create, subscript, hst, catchKeyError,
        except_bind_ok, hc]

theorem webpackYamFactory_create_invalid (kvs : List (String × JsonValue))
    (h : hasKey (JsonValue.obj kvs) "status" = false ∨
      hasKey (JsonValue.obj kvs) "files" = false) :
    WebpackYamFactory.create (JsonValue.obj kvs) =
      .error (.invalidManifest "webpack-yam-plugin") := by
  cases hst : kvs.lookup "status" with
  | none =>
    simp [WebpackYamFactory.create, subscript, hst, catchKeyError, except_bind_error]
  | some v =>
    have hs_true : (kvs.any fun kv => kv.1 == "status") = true :=
      lookup_some_hasKey _ _ _ hst
    have hf : hasKey (JsonValue.obj kvs) "files" = false := by
      rcases h with hs | hf
      · simp [hasKey, hs_true] at hs
      · exact hf
    have hfn : kvs.lookup "files" = none :=
      (lookup_none_iff_any_false kvs "files").mpr (by simpa [hasKey] using hf)
    simp [WebpackYamFactory.create, subscript, hst, hfn, catchKeyError,
      except_bind_ok, except_bind_error]

theorem loadLoop_skip (fp : String) (data : JsonValue)
    (t : JsonValue → Except PyError Manifest)
    (ts : List (JsonValue → Except PyError Manifest)) (s : String)
    (h : t data = .error (.invalidManifest s)) :
    ManifestLoader.loadLoop fp data (t :: ts) = ManifestLoader.loadLoop fp data ts := by
  simp [ManifestLoader.loadLoop, h]

theorem loadLoop_pass (fp : String) (data : JsonValue)
    (t : JsonValue → Except PyError Manifest)
    (ts : List (JsonValue → Except PyError Manifest))
    (hne : ∀ s, t data ≠ .error (.invalidManifest s)) :
    ManifestLoader.loadLoop fp data (t :: ts) = t data := by
  rcases h : t data with e | m
  · cases e with
    | invalidManifest s => exact absurd h (hne s)
    | unfinishedManifest d => simp [ManifestLoader.loadLoop, h]
    | unsupportedManifest p => simp [ManifestLoader.loadLoop, h]
    | unsupportedExtension p => simp [ManifestLoader.loadLoop, h]
    | keyError k => simp [ManifestLoader.loadLoop, h]
    | typeError msg => simp [ManifestLoader.loadLoop, h]
    | attributeError msg => simp [ManifestLoader.loadLoop, h]
  · simp [ManifestLoader.loadLoop, h]

/-- C3: WebpackBundleTrackerFactory.create raises InvalidManifestError when
"status" or "chunks" is missing; raises UnfinishedManifestError when both
are present but status is not "done"; and otherwise returns a Manifest with
one entry per chunk whose paths are the publicPath fields of its
descriptors, in order.  In particular status "initial" with empty chunks
fails with UnfinishedManifestError, and status "done" with chunk app =
[obj with publicPath "app.js"] yields entry "app" with paths ["app.js"]. -/
theorem webpackBundleTrackerFactory_create_spec :
    (∀ kvs : List (String × JsonValue),
      hasKey (JsonValue.obj kvs) "status" = false ∨
        hasKey (JsonValue.obj kvs) "chunks" = false →
      WebpackBundleTrackerFactory.create (JsonValue.obj kvs) =
        .error (.invalidManifest "webpack-bundle-tracker")) ∧
    (∀ (kvs : List (String × JsonValue)) (status : JsonValue),
      kvs.lookup "status" = some status →
      hasKey (JsonValue.obj kvs) "chunks" = true →
      status ≠ JsonValue.str "done" →
      WebpackBundleTrackerFactory.create (JsonValue.obj kvs) =
        .error (.unfinishedManifest (JsonValue.obj kvs))) ∧
    (∀ (kvs ckvs : List (String × JsonValue)),
      kvs.lookup "status" = some (JsonValue.str "done") →
      kvs.lookup "chunks" = some (JsonValue.obj ckvs) →
      (ckvs.map Prod.fst).Nodup →
      (∀ ckv ∈ ckvs, ∃ ds, ckv.2 = JsonValue.arr ds ∧
        ∀ d ∈ ds, ∃ dkvs, d = JsonValue.obj dkvs ∧ (dkvs.lookup "publicPath").isSome = true) →
      WebpackBundleTrackerFactory.create (JsonValue.obj kvs) =
        .ok ⟨ckvs.map fun ckv => (ckv.1, ⟨ckv.1, .arr (chunkPublicPaths ckv.2)⟩)⟩) ∧
    WebpackBundleTrackerFactory.create
        (JsonValue.obj [("status", JsonValue.str "initial"), ("chunks", JsonValue.obj [])]) =
      .error (.unfinishedManifest
        (JsonValue.obj [("status", JsonValue.str "initial"), ("chunks", JsonValue.obj [])])) ∧
    WebpackBundleTrackerFactory.create
        (JsonValue.obj [("status", JsonValue.str "done"),
          ("chunks", JsonValue.obj [("app", JsonValue.arr
            [JsonValue.obj [("publicPath", JsonValue.str "app.js")]])])]) =
      .ok ⟨[("app", ⟨"app", JsonValue.arr [JsonValue.str "app.js"]⟩)]⟩ := by
  refine ⟨webpackBundleTrackerFactory_create_invalid, ?_, ?_, rfl, rfl⟩
  · intro kvs status hst hck hne
    simp [WebpackBundleTrackerFactory.create, subscript, hst, catchKeyError,
      except_bind_ok, hck, eqStrLit_false hne]
  · intro kvs ckvs hst hck hnd hwf
    have hck_true : hasKey (JsonValue.obj kvs) "chunks" = true := by
      simpa [hasKey] using lookup_some_hasKey _ _ _ hck
    simp only [WebpackBundleTrackerFactory.create, subscript, hst, hck, catchKeyError,
      except_bind_ok, hck_true, JsonValue.eqStrLit, items, Bool.not_true,
      beq_self_eq_true, if_false, Bool.false_eq_true, ite_false, ite_true]
    simpa [ManifestFactory.create_manifest] using
      webpackBundleTrackerFactory_createLoop_ok ckvs ManifestFactory.create_manifest hnd
        (fun kv _ => rfl) hwf

/-- C3 witness: the general conjuncts applied at concrete inputs — a data
object missing "chunks" is rejected as invalid, and the well-formed "done"
example builds the expected manifest. -/
theorem webpackBundleTrackerFactory_create_spec_witness :
    WebpackBundleTrackerFactory.create (JsonValue.obj [("status", JsonValue.str "done")]) =
      .error (.invalidManifest "webpack-bundle-tracker") ∧
    WebpackBundleTrackerFactory.create
        (JsonValue.obj [("status", JsonValue.str "done"),
          ("chunks", JsonValue.obj [("app", JsonValue.arr
            [JsonValue.obj [("publicPath", JsonValue.str "app.js")]])])]) =
      .ok ⟨[("app", ⟨"app", JsonValue.arr [JsonValue.str "app.js"]⟩)]⟩ := by
  constructor
  · exact webpackBundleTrackerFactory_create_spec.1
      [("status", JsonValue.str "done")] (Or.inr rfl)
  · have h := webpackBundleTrackerFactory_create_spec.2.2.1
      [("status", JsonValue.str "done"),
       ("chunks", JsonValue.obj [("app", JsonValue.arr
         [JsonValue.obj [("publicPath", JsonValue.str "app.js")]])])]
      [("app", JsonValue.arr [JsonValue.obj [("publicPath", JsonValue.str "app.js")]])]
      rfl rfl (by decide) ?_
    · simpa [chunkPublicPaths, publicPathOf, List.lookup] using h
    · intro ckv hckv
      rcases List.mem_cons.mp hckv with heq | hmem
      · subst heq
        refine ⟨[JsonValue.obj [("publicPath", JsonValue.str "app.js")]], rfl, ?_⟩
        intro d hd
        rcases List.mem_cons.mp hd with hdeq | hdmem
        · subst hdeq
          exact ⟨[("publicPath", JsonValue.str "app.js")], rfl, rfl⟩
        · exact absurd hdmem (List.not_mem_nil d)
      · exact absurd hmem (List.not_mem_nil ckv)

/-- C4 counterexample: with status "built" and files the empty mapping,
WebpackYamFactory.create succeeds with an empty manifest; it does not raise
UnfinishedManifestError, refuting the claim that an empty files value is
treated as unfinished. -/
theorem webpackYamFactory_create_emptyFiles_ok :
    WebpackYamFactory.create
        (JsonValue.obj [("status", JsonValue.str "built"), ("files", JsonValue.obj [])]) =
      .ok ⟨[]⟩ := rfl

/-- C4 (amended): WebpackYamFactory.create raises InvalidManifestError when
"status" or "files" is missing; raises UnfinishedManifestError when the
value of "files" is null or status is not "built" (an empty files mapping
is NOT treated as unfinished: it yields an empty manifest); and otherwise
returns a Manifest with one entry per key of files whose paths are the
stored value.  In particular files = null with status "built" and a
non-empty files mapping with status "building" both fail with
UnfinishedManifestError. -/
theorem webpackYamFactory_create_spec :
    (∀ kvs : List (String × JsonValue),
      hasKey (JsonValue.obj kvs) "status" = false ∨
        hasKey (JsonValue.obj kvs) "files" = false →
      WebpackYamFactory.create (JsonValue.obj kvs) =
        .error (.invalidManifest "webpack-yam-plugin")) ∧
    (∀ (kvs : List (String × JsonValue)) (status files : JsonValue),
      kvs.lookup "status" = some status →
      kvs.lookup "files" = some files →
      files = JsonValue.null ∨ status ≠ JsonValue.str "built" →
      WebpackYamFactory.create (JsonValue.obj kvs) =
        .error (.unfinishedManifest (JsonValue.obj kvs))) ∧
    (∀ (kvs fkvs : List (String × JsonValue)),
      kvs.lookup "status" = some (JsonValue.str "built") →
      kvs.lookup "files" = some (JsonValue.obj fkvs) →
      (fkvs.map Prod.fst).Nodup →
      WebpackYamFactory.create (JsonValue.obj kvs) =
        .ok ⟨fkvs.map fun kv => (kv.1, ⟨kv.1, kv.2⟩)⟩) ∧
    WebpackYamFactory.create
        (JsonValue.obj [("status", JsonValue.str "built"), ("files", JsonValue.null)]) =
      .error (.unfinishedManifest
        (JsonValue.obj [("status", JsonValue.str "built"), ("files", JsonValue.null)])) ∧
    WebpackYamFactory.create
        (JsonValue.obj [("status", JsonValue.str "building"),
          ("files", JsonValue.obj [("app", JsonValue.arr [JsonValue.str "app.js"])])]) =
      .error (.unfinishedManifest
        (JsonValue.obj [("status", JsonValue.str "building"),
          ("files", JsonValue.obj [("app", JsonValue.arr [JsonValue.str "app.js"])])])) := by
  refine ⟨webpackYamFactory_create_invalid, ?_, ?_, rfl, rfl⟩
  · intro kvs status files hst hfl hun
    rcases hun with hnull | hne
    · subst hnull
      simp [WebpackYamFactory.create, subscript, hst, hfl, catchKeyError,
        except_bind_ok, JsonValue.isNull]
    · simp [WebpackYamFactory.create, subscript, hst, hfl, catchKeyError,
        except_bind_ok, eqStrLit_false hne]
  · intro kvs fkvs hst hfl hnd
    simp only [WebpackYamFactory.create, subscript, hst, hfl, catchKeyError,
      except_bind_ok, JsonValue.isNull, JsonValue.eqStrLit, items, Bool.not_true,
      beq_self_eq_true, Bool.false_or, Bool.false_eq_true, ite_false, ite_true]
    simpa [ManifestFactory.create_manifest] using
      webpackYamFactory_createLoop_ok fkvs ManifestFactory.create_manifest hnd
        (fun kv _ => rfl)

/-- C4 witness: the amended general conjuncts applied at concrete inputs. -/
theorem webpackYamFactory_create_spec_witness :
    WebpackYamFactory.create (JsonValue.obj [("files", JsonValue.obj [])]) =
      .error (.invalidManifest "webpack-yam-plugin") ∧
    WebpackYamFactory.create
        (JsonValue.obj [("status", JsonValue.str "building"),
          ("files", JsonValue.obj [("app", JsonValue.arr [JsonValue.str "app.js"])])]) =
      .error (.unfinishedManifest
        (JsonValue.obj [("status", JsonValue.str "building"),
          ("files", JsonValue.obj [("app", JsonValue.arr [JsonValue.str "app.js"])])])) ∧
    WebpackYamFactory.create
        (JsonValue.obj [("status", JsonValue.str "built"),
          ("files", JsonValue.obj [("app", JsonValue.arr [JsonValue.str "app.js"])])]) =
      .ok ⟨[("app", ⟨"app", JsonValue.arr [JsonValue.str "app.js"]⟩)]⟩ := by
  refine ⟨?_, ?_, ?_⟩
  · exact webpackYamFactory_create_spec.1 [("files", JsonValue.obj [])] (Or.inl rfl)
  · exact webpackYamFactory_create_spec.2.1
      [("status", JsonValue.str "building"),
       ("files", JsonValue.obj [("app", JsonValue.arr [JsonValue.str "app.js"])])]
      (JsonValue.str "building")
      (JsonValue.obj [("app", JsonValue.arr [JsonValue.str "app.js"])])
      rfl rfl
      (Or.inr fun h => by injection h with h'; exact absurd h' (by decide))
  · exact webpackYamFactory_create_spec.2.2.1
      [("status", JsonValue.str "built"),
       ("files", JsonValue.obj [("app", JsonValue.arr [JsonValue.str "app.js"])])]
      [("app", JsonValue.arr [JsonValue.str "app.js"])]
      rfl rfl (by decide)

/-- C5: WebpackManifestFactory.create, on a flat mapping, raises
InvalidManifestError when some value is not a string, and otherwise
returns a Manifest with one entry per key whose paths are the one-element
list holding that string value; in particular a mapping with value 123 is
rejected with InvalidManifestError. -/
theorem webpackManifestFactory_create_spec :
    (∀ kvs : List (String × JsonValue), (kvs.map Prod.fst).Nodup →
      (∃ kv ∈ kvs, ∀ s, kv.2 ≠ JsonValue.str s) →
      WebpackManifestFactory.create (JsonValue.obj kvs) =
        .error (.invalidManifest "webpack-manifest-plugin")) ∧
    (∀ kvs : List (String × JsonValue), (kvs.map Prod.fst).Nodup →
      (∀ kv ∈ kvs, ∃ s, kv.2 = JsonValue.str s) →
      WebpackManifestFactory.create (JsonValue.obj kvs) =
        .ok ⟨kvs.map fun kv => (kv.1, ⟨kv.1, .arr [kv.2]⟩)⟩) ∧
    WebpackManifestFactory.create
        (JsonValue.obj [("app", JsonValue.str "app.js"), ("app.css", JsonValue.num 123)]) =
      .error (.invalidManifest "webpack-manifest-plugin") := by
  refine ⟨?_, ?_, rfl⟩
  · intro kvs hnd hex
    simp only [WebpackManifestFactory.create, items, except_bind_ok]
    exact webpackManifestFactory_createLoop_invalid kvs ManifestFactory.create_manifest hnd
      (fun kv _ => rfl) hex
  · intro kvs hnd hall
    simp only [WebpackManifestFactory.create, items, except_bind_ok]
    simpa [ManifestFactory.create_manifest] using
      webpackManifestFactory_createLoop_ok kvs ManifestFactory.create_manifest hnd
        (fun kv _ => rfl) hall

/-- C5 witness: the general conjuncts applied at the concrete mapping of
the claim and at an all-strings mapping. -/
theorem webpackManifestFactory_create_spec_witness :
    WebpackManifestFactory.create
        (JsonValue.obj [("app", JsonValue.str "app.js"), ("app.css", JsonValue.num 123)]) =
      .error (.invalidManifest "webpack-manifest-plugin") ∧
    WebpackManifestFactory.create (JsonValue.obj [("app", JsonValue.str "app.js")]) =
      .ok ⟨[("app", ⟨"app", JsonValue.arr [JsonValue.str "app.js"]⟩)]⟩ := by
  constructor
  · exact webpackManifestFactory_create_spec.1
      [("app", JsonValue.str "app.js"), ("app.css", JsonValue.num 123)] (by decide)
      ⟨("app.css", JsonValue.num 123),
       List.mem_cons_of_mem _ (List.mem_cons_self _ _),
       fun s h => JsonValue.noConfusion h⟩
  · exact webpackManifestFactory_create_spec.2.1
      [("app", JsonValue.str "app.js")] (by decide)
      (fun kv hkv => by
        rcases List.mem_cons.mp hkv with heq | hmem
        · exact ⟨"app.js", congrArg Prod.snd heq⟩
        · exact absurd hmem (List.not_mem_nil kv))

/-- C9: loading a file whose JSON is the empty object succeeds: the
bundle-tracker and yam factories reject it with InvalidManifestError, the
flat webpack-manifest factory vacuously accepts it, and ManifestLoader.load
returns a Manifest containing no entries. -/
theorem manifestLoader_load_emptyObject (filepath : String) :
    WebpackBundleTrackerFactory.create (JsonValue.obj []) =
      .error (.invalidManifest "webpack-bundle-tracker") ∧
    WebpackYamFactory.create (JsonValue.obj []) =
      .error (.invalidManifest "webpack-yam-plugin") ∧
    WebpackManifestFactory.create (JsonValue.obj []) = .ok ⟨[]⟩ ∧
    ManifestLoader.load filepath (JsonValue.obj []) = .ok ⟨[]⟩ :=
  ⟨rfl, rfl, rfl, rfl⟩

/-- C6: ManifestEntry.render on a list of string paths returns, when every
path's lowercased extension is ".js" or ".css", the concatenation in path
order of the script tag for ".js" paths and the stylesheet link tag for
".css" paths, with no separator; when some path has an unmapped extension
it raises UnsupportedExtensionError carrying the first offending path and
renders nothing past it.  In particular entry app with paths app.js and
app.css renders the two tags, and entry x with path x.png fails with
UnsupportedExtensionError. -/
theorem manifestEntry_render_spec :
    (∀ (name : String) (paths : List String),
      (∀ p ∈ paths,
        strToLower (splitext p).2 = ".js" ∨ strToLower (splitext p).2 = ".css") →
      ManifestEntry.render ⟨name, .arr (paths.map JsonValue.str)⟩ =
        .ok (String.join (paths.map expectedTag))) ∧
    (∀ (name bad : String) (good rest : List String),
      (∀ p ∈ good,
        strToLower (splitext p).2 = ".js" ∨ strToLower (splitext p).2 = ".css") →
      strToLower (splitext bad).2 ≠ ".js" →
      strToLower (splitext bad).2 ≠ ".css" →
      ManifestEntry.render ⟨name, .arr ((good ++ bad :: rest).map JsonValue.str)⟩ =
        .error (.unsupportedExtension bad)) ∧
    ManifestEntry.render ⟨"app", .arr [JsonValue.str "app.js", JsonValue.str "app.css"]⟩ =
      .ok "<script src=\"app.js\"></script><link rel=\"stylesheet\" href=\"app.css\"></link>" ∧
    ManifestEntry.render ⟨"x", .arr [JsonValue.str "x.png"]⟩ =
      .error (.unsupportedExtension "x.png") := by
  refine ⟨?_, ?_, rfl, rfl⟩
  · intro name paths h
    simp [ManifestEntry.render, pyIter, except_bind_ok, renderLoop_ok paths h]
  · intro name bad good rest hgood hb1 hb2
    have hloop := renderLoop_unsupportedExtension good bad rest hgood hb1 hb2
    simp only [List.map_append, List.map_cons] at hloop
    simp [ManifestEntry.render, pyIter, except_bind_ok, except_bind_error, hloop]

/-- C6 witness: the general conjuncts applied at the two concrete entries
of the claim. -/
theorem manifestEntry_render_spec_witness :
    ManifestEntry.render ⟨"app", .arr [JsonValue.str "app.js", JsonValue.str "app.css"]⟩ =
      .ok "<script src=\"app.js\"></script><link rel=\"stylesheet\" href=\"app.css\"></link>" ∧
    ManifestEntry.render ⟨"x", .arr [JsonValue.str "x.png"]⟩ =
      .error (.unsupportedExtension "x.png") := by
  constructor
  · exact manifestEntry_render_spec.1 "app" ["app.js", "app.css"] (by decide)
  · exact manifestEntry_render_spec.2.1 "x" "x.png" [] [] (by decide) (by decide) (by decide)

/-- C7: Manifest.add fails with the duplicate-name KeyError whenever an
entry with the same name is already stored anywhere in the manifest, and
the failing call leaves the stored value for that name unchanged; in
particular calling add twice with entries sharing a name fails on the
second call and the first entry's stored value is still returned. -/
theorem manifest_add_duplicate :
    (∀ (m : Manifest) (e2 e : ManifestEntry),
      m.entries.lookup e2.name = some e →
      m.add e2 = .error (.keyError ("Entry " ++ e2.name ++ " already present")) ∧
      m.getItem e2.name = .ok e) ∧
    (∀ (m m2 : Manifest) (e1 e2 : ManifestEntry), e2.name = e1.name →
      m.add e1 = .ok m2 →
      m2.add e2 = .error (.keyError ("Entry " ++ e2.name ++ " already present")) ∧
      m2.getItem e1.name = .ok e1) := by
  have key : ∀ (m : Manifest) (e2 e : ManifestEntry),
      m.entries.lookup e2.name = some e →
      m.add e2 = .error (.keyError ("Entry " ++ e2.name ++ " already present")) ∧
      m.getItem e2.name = .ok e := by
    intro m e2 e h
    exact ⟨by simp [Manifest.add, lookup_some_hasKey _ _ _ h],
           by simp [Manifest.getItem, h]⟩
  refine ⟨key, ?_⟩
  intro m m2 e1 e2 hname hadd
  simp only [Manifest.add] at hadd
  split at hadd
  · exact absurd hadd (by simp)
  · rename_i hc
    have hcf : (m.entries.any fun kv => kv.1 == e1.name) = false :=
      Bool.eq_false_iff.mpr hc
    have hm2 : m2 = ⟨m.entries ++ [(e1.name, e1)]⟩ := by
      injection hadd with h
      exact h.symm
    subst hm2
    have hlk : (m.entries ++ [(e1.name, e1)]).lookup e1.name = some e1 := by
      rw [lookup_append_of_any_false _ _ _ hcf]
      simp [List.lookup]
    have hmain := key ⟨m.entries ++ [(e1.name, e1)]⟩ e2 e1 (by rw [hname]; exact hlk)
    rw [hname] at hmain ⊢
    exact hmain

/-- C7 witness: on a manifest where "app" is the first of two stored
entries, adding another "app" entry fails with the duplicate-name KeyError
and the stored value is unchanged; the add-twice scenario is also
instantiated. -/
theorem manifest_add_duplicate_witness :
    (Manifest.mk [("app", ⟨"app", JsonValue.arr [JsonValue.str "app.js"]⟩),
        ("other", ⟨"other", JsonValue.null⟩)]).add ⟨"app", JsonValue.null⟩ =
      .error (.keyError "Entry app already present") ∧
    (Manifest.mk [("app", ⟨"app", JsonValue.arr [JsonValue.str "app.js"]⟩),
        ("other", ⟨"other", JsonValue.null⟩)]).getItem "app" =
      .ok ⟨"app", JsonValue.arr [JsonValue.str "app.js"]⟩ ∧
    (Manifest.mk [("app", ⟨"app", JsonValue.arr [JsonValue.str "app.js"]⟩)]).add
        ⟨"app", JsonValue.null⟩ = .error (.keyError "Entry app already present") := by
  have h1 := manifest_add_duplicate.1
    ⟨[("app", ⟨"app", JsonValue.arr [JsonValue.str "app.js"]⟩),
      ("other", ⟨"other", JsonValue.null⟩)]⟩
    ⟨"app", JsonValue.null⟩ ⟨"app", JsonValue.arr [JsonValue.str "app.js"]⟩ rfl
  have h2 := manifest_add_duplicate.2 ⟨[]⟩
    ⟨[("app", ⟨"app", JsonValue.arr [JsonValue.str "app.js"]⟩)]⟩
    ⟨"app", JsonValue.arr [JsonValue.str "app.js"]⟩ ⟨"app", JsonValue.null⟩ rfl rfl
  exact ⟨h1.1, h1.2, h2.1⟩

/-- C8: for every Manifest and stored entry name, subscript lookup and
attribute-style lookup both return the stored entry; on a missing name
attribute-style lookup fails with AttributeError while subscript lookup
fails with KeyError — two distinct error kinds. -/
theorem manifest_lookup_spec (m : Manifest) (name : String) :
    (∀ e, m.entries.lookup name = some e →
      m.getItem name = .ok e ∧ m.getAttr name = .ok e) ∧
    (m.entries.lookup name = none →
      m.getItem name = .error (.keyError name) ∧
      m.getAttr name =
        .error (.attributeError ("Attribute " ++ name ++ " does not exists."))) := by
  constructor
  · intro e he
    exact ⟨by simp [Manifest.getItem, he], by simp [Manifest.getAttr, he]⟩
  · intro hn
    exact ⟨by simp [Manifest.getItem, hn], by simp [Manifest.getAttr, hn]⟩

/-- C8 witness: on a manifest holding entry "app", both lookups return it,
and attribute lookup of the missing name "x" fails with AttributeError. -/
theorem manifest_lookup_spec_witness :
    (Manifest.mk [("app", ⟨"app", JsonValue.arr []⟩)]).getItem "app" =
        .ok ⟨"app", JsonValue.arr []⟩ ∧
    (Manifest.mk [("app", ⟨"app", JsonValue.arr []⟩)]).getAttr "app" =
        .ok ⟨"app", JsonValue.arr []⟩ ∧
    (Manifest.mk [("app", ⟨"app", JsonValue.arr []⟩)]).getAttr "x" =
      .error (.attributeError "Attribute x does not exists.") := by
  refine ⟨?_, ?_, ?_⟩
  · exact ((manifest_lookup_spec ⟨[("app", ⟨"app", JsonValue.arr []⟩)]⟩ "app").1
      ⟨"app", JsonValue.arr []⟩ rfl).1
  · exact ((manifest_lookup_spec ⟨[("app", ⟨"app", JsonValue.arr []⟩)]⟩ "app").1
      ⟨"app", JsonValue.arr []⟩ rfl).2
  · exact ((manifest_lookup_spec ⟨[("app", ⟨"app", JsonValue.arr []⟩)]⟩ "x").2 rfl).2

/-- C1: ManifestLoader.load tries the factories in the fixed order
bundle-tracker, yam, flat; a factory raising InvalidManifestError is
skipped and the next one tried; a success or any other error from a
factory (e.g. UnfinishedManifestError) is returned immediately without
trying later factories; and when all three raise InvalidManifestError the
loader raises UnsupportedManifestError carrying the file path. -/
theorem manifestLoader_load_order (fp : String) (data : JsonValue) :
    (∀ m, WebpackBundleTrackerFactory.create data = .ok m →
      ManifestLoader.load fp data = .ok m) ∧
    (∀ e, WebpackBundleTrackerFactory.create data = .error e →
      (∀ s, e ≠ .invalidManifest s) →
      ManifestLoader.load fp data = .error e) ∧
    (∀ s m, WebpackBundleTrackerFactory.create data = .error (.invalidManifest s) →
      WebpackYamFactory.create data = .ok m →
      ManifestLoader.load fp data = .ok m) ∧
    (∀ s e, WebpackBundleTrackerFactory.create data = .error (.invalidManifest s) →
      WebpackYamFactory.create data = .error e →
      (∀ s2, e ≠ .invalidManifest s2) →
      ManifestLoader.load fp data = .error e) ∧
    (∀ s1 s2 m, WebpackBundleTrackerFactory.create data = .error (.invalidManifest s1) →
      WebpackYamFactory.create data = .error (.invalidManifest s2) →
      WebpackManifestFactory.create data = .ok m →
      ManifestLoader.load fp data = .ok m) ∧
    (∀ s1 s2 e, WebpackBundleTrackerFactory.create data = .error (.invalidManifest s1) →
      WebpackYamFactory.create data = .error (.invalidManifest s2) →
      WebpackManifestFactory.create data = .error e →
      (∀ s3, e ≠ .invalidManifest s3) →
      ManifestLoader.load fp data = .error e) ∧
    (∀ s1 s2 s3, WebpackBundleTrackerFactory.create data = .error (.invalidManifest s1) →
      WebpackYamFactory.create data = .error (.invalidManifest s2) →
      WebpackManifestFactory.create data = .error (.invalidManifest s3) →
      ManifestLoader.load fp data = .error (.unsupportedManifest fp)) := by
  refine ⟨?_, ?_, ?_, ?_, ?_, ?_, ?_⟩
  · intro m h
    simp only [ManifestLoader.load, ManifestLoader.types]
    rw [loadLoop_pass fp data _ _ (fun s hc => by
      rw [h] at hc; exact Except.noConfusion hc)]
    exact h
  · intro e h hne
    simp only [ManifestLoader.load, ManifestLoader.types]
    rw [loadLoop_pass fp data _ _ (fun s hc => by
      rw [h] at hc; exact hne s (Except.error.inj hc))]
    exact h
  · intro s m hb hy
    simp only [ManifestLoader.load, ManifestLoader.types]
    rw [loadLoop_skip fp data _ _ s hb,
      loadLoop_pass fp data _ _ (fun s2 hc => by
        rw [hy] at hc; exact Except.noConfusion hc)]
    exact hy
  · intro s e hb hy hne
    simp only [ManifestLoader.load, ManifestLoader.types]
    rw [loadLoop_skip fp data _ _ s hb,
      loadLoop_pass fp data _ _ (fun s2 hc => by
        rw [hy] at hc; exact hne s2 (Except.error.inj hc))]
    exact hy
  · intro s1 s2 m hb hy hf
    simp only [ManifestLoader.load, ManifestLoader.types]
    rw [loadLoop_skip fp data _ _ s1 hb, loadLoop_skip fp data _ _ s2 hy,
      loadLoop_pass fp data _ _ (fun s3 hc => by
        rw [hf] at hc; exact Except.noConfusion hc)]
    exact hf
  · intro s1 s2 e hb hy hf hne
    simp only [ManifestLoader.load, ManifestLoader.types]
    rw [loadLoop_skip fp data _ _ s1 hb, loadLoop_skip fp data _ _ s2 hy,
      loadLoop_pass fp data _ _ (fun s3 hc => by
        rw [hf] at hc; exact hne s3 (Except.error.inj hc))]
    exact hf
  · intro s1 s2 s3 hb hy hf
    simp only [ManifestLoader.load, ManifestLoader.types]
    rw [loadLoop_skip fp data _ _ s1 hb, loadLoop_skip fp data _ _ s2 hy,
      loadLoop_skip fp data _ _ s3 hf]
    rfl

/-- C1 witness: a mapping rejected as invalid by all three factories makes
the loader raise UnsupportedManifestError with the file path. -/
theorem manifestLoader_load_order_witness :
    ManifestLoader.load "manifest.json" (JsonValue.obj [("a", JsonValue.num 1)]) =
      .error (.unsupportedManifest "manifest.json") :=
  (manifestLoader_load_order "manifest.json"
      (JsonValue.obj [("a", JsonValue.num 1)])).2.2.2.2.2.2
    "webpack-bundle-tracker" "webpack-yam-plugin" "webpack-manifest-plugin" rfl rfl rfl

/-- C2 counterexample: a JSON array is not a mapping, so the first
factory's data["status"] subscript raises TypeError, which the loader does
not catch: load propagates it instead of raising UnsupportedManifestError,
refuting the claim for non-mapping documents. -/
theorem manifestLoader_load_array_counterexample :
    ManifestLoader.load "manifest.json" (JsonValue.arr []) =
      .error (.typeError "value is not subscriptable by string") ∧
    ManifestLoader.load "manifest.json" (JsonValue.arr []) ≠
      .error (.unsupportedManifest "manifest.json") := by
  constructor
  · rfl
  · intro h
    rw [show ManifestLoader.load "manifest.json" (JsonValue.arr []) =
        .error (.typeError "value is not subscriptable by string") from rfl] at h
    injection h with h'
    exact PyError.noConfusion h'

/-- C2 (amended): for every parsed JSON mapping with unique keys whose
shape matches none of the three factories — it does not have both "status"
and "chunks", does not have both "status" and "files", and some value is
not a string — ManifestLoader.load fails with UnsupportedManifestError
naming the file path.  (The original claim also covered non-mapping
documents such as arrays; those make the first factory raise TypeError,
which propagates instead.) -/
theorem manifestLoader_load_unsupported (fp : String) (kvs : List (String × JsonValue))
    (hnd : (kvs.map Prod.fst).Nodup)
    (hb : hasKey (JsonValue.obj kvs) "status" = false ∨
      hasKey (JsonValue.obj kvs) "chunks" = false)
    (hy : hasKey (JsonValue.obj kvs) "status" = false ∨
      hasKey (JsonValue.obj kvs) "files" = false)
    (hf : ∃ kv ∈ kvs, ∀ s, kv.2 ≠ JsonValue.str s) :
    ManifestLoader.load fp (JsonValue.obj kvs) = .error (.unsupportedManifest fp) := by
  have h1 := webpackBundleTrackerFactory_create_invalid kvs hb
  have h2 := webpackYamFactory_create_invalid kvs hy
  have h3 : WebpackManifestFactory.create (JsonValue.obj kvs) =
      .error (.invalidManifest "webpack-manifest-plugin") := by
    simp only [WebpackManifestFactory.create, items, except_bind_ok]
    exact webpackManifestFactory_createLoop_invalid kvs ManifestFactory.create_manifest hnd
      (fun kv _ => rfl) hf
  simp only [ManifestLoader.load, ManifestLoader.types]
  rw [loadLoop_skip fp _ _ _ _ h1, loadLoop_skip fp _ _ _ _ h2,
    loadLoop_skip fp _ _ _ _ h3]
  rfl

/-- C2 witness: the amended statement applied at a one-key mapping whose
value is null. -/
theorem manifestLoader_load_unsupported_witness :
    ManifestLoader.load "manifest.json" (JsonValue.obj [("x", JsonValue.null)]) =
      .error (.unsupportedManifest "manifest.json") :=
  manifestLoader_load_unsupported "manifest.json" [("x", JsonValue.null)] (by decide)
    (Or.inl rfl) (Or.inl rfl)
    ⟨("x", JsonValue.null), List.mem_cons_self _ _, fun s h => JsonValue.noConfusion h⟩

/-- C10: with status "done" and chunks present, every chunk descriptor
must carry "publicPath": when some descriptor (a JSON object) lacks it,
WebpackBundleTrackerFactory.create fails with the builtin KeyError — not
one of the four manifest-domain error kinds — and ManifestLoader.load
returns that same error, so later factories are never tried. -/
theorem webpackBundleTrackerFactory_missing_publicPath (fp : String)
    (kvs ckvs : List (String × JsonValue))
    (hst : kvs.lookup "status" = some (JsonValue.str "done"))
    (hck : kvs.lookup "chunks" = some (JsonValue.obj ckvs))
    (hnd : (ckvs.map Prod.fst).Nodup)
    (hwf : ∀ ckv ∈ ckvs, ∃ ds, ckv.2 = JsonValue.arr ds ∧
      ∀ d ∈ ds, ∃ dkvs, d = JsonValue.obj dkvs)
    (hmiss : ∃ ckv ∈ ckvs, ∃ ds, ckv.2 = JsonValue.arr ds ∧
      ∃ d ∈ ds, ∃ dkvs, d = JsonValue.obj dkvs ∧ dkvs.lookup "publicPath" = none) :
    WebpackBundleTrackerFactory.create (JsonValue.obj kvs) =
      .error (.keyError "publicPath") ∧
    PyError.isManifestError (.keyError "publicPath") = false ∧
    ManifestLoader.load fp (JsonValue.obj kvs) = .error (.keyError "publicPath") := by
  have hck_true : hasKey (JsonValue.obj kvs) "chunks" = true := by
    simpa [hasKey] using lookup_some_hasKey _ _ _ hck
  have hcreate : WebpackBundleTrackerFactory.create (JsonValue.obj kvs) =
      .error (.keyError "publicPath") := by
    simp only [WebpackBundleTrackerFactory.create, subscript, hst, hck, catchKeyError,
      except_bind_ok, hck_true, JsonValue.eqStrLit, items, Bool.not_true,
      beq_self_eq_true, Bool.false_eq_true, ite_false, ite_true]
    exact webpackBundleTrackerFactory_createLoop_keyError ckvs
      ManifestFactory.create_manifest hnd (fun kv _ => rfl) hwf hmiss
  refine ⟨hcreate, rfl, ?_⟩
  simp only [ManifestLoader.load, ManifestLoader.types]
  rw [loadLoop_pass fp _ _ _ (fun s hc => by
    rw [hcreate] at hc
    exact PyError.noConfusion (Except.error.inj hc))]
  exact hcreate

/-- C10 witness: a chunk whose single descriptor is the empty object makes
create and load both fail with KeyError "publicPath". -/
theorem webpackBundleTrackerFactory_missing_publicPath_witness :
    WebpackBundleTrackerFactory.create
        (JsonValue.obj [("status", JsonValue.str "done"),
          ("chunks", JsonValue.obj [("app", JsonValue.arr [JsonValue.obj []])])]) =
      .error (.keyError "publicPath") ∧
    ManifestLoader.load "manifest.json"
        (JsonValue.obj [("status", JsonValue.str "done"),
          ("chunks", JsonValue.obj [("app", JsonValue.arr [JsonValue.obj []])])]) =
      .error (.keyError "publicPath") := by
  have h := webpackBundleTrackerFactory_missing_publicPath "manifest.json"
    [("status", JsonValue.str "done"),
     ("chunks", JsonValue.obj [("app", JsonValue.arr [JsonValue.obj []])])]
    [("app", JsonValue.arr [JsonValue.obj []])]
    rfl rfl (by decide) ?_ ?_
  · exact ⟨h.1, h.2.2⟩
  · intro ckv hckv
    rcases List.mem_cons.mp hckv with heq | hmem
    · subst heq
      refine ⟨[JsonValue.obj []], rfl, ?_⟩
      intro d hd
      rcases List.mem_cons.mp hd with hdeq | hdmem
      · subst hdeq
        exact ⟨[], rfl⟩
      · exact absurd hdmem (List.not_mem_nil d)
    · exact absurd hmem (List.not_mem_nil ckv)
  · exact ⟨("app", JsonValue.arr [JsonValue.obj []]), List.mem_cons_self _ _,
      [JsonValue.obj []], rfl, JsonValue.obj [], List.mem_cons_self _ _, [], rfl, rfl⟩

end PyWebpack
